import Mathlib

/-!
Odil Usta: client state machine of `src/App.jsx`

A shallow embedding of the state held by the `App` component (navigation
history, product catalogue, cart, product drafts) and of the handlers that
change it, followed by theorems about them.

React state is passed explicitly: every handler takes the `AppState` it closes
over and returns the state after its `set...` calls.  The remote product table
reached through the `supabase` client is not part of `App.jsx`; it is modelled
as a table with a script of transport outcomes (section "Product store").

Numbers: costs and quantities are JavaScript numbers in the source.  The
integer values the cart works with are embedded as `Int`; the arithmetic of
`calculateTotal` is that of IEEE-754 doubles on such values (section
"JavaScript numbers"), exact inside the safe-integer range and rounded outside
it.  The increment `quantity + 1` of `addProductToCart` is kept exact; in the
source it rounds only from a quantity of 2^53 on.
-/

namespace OdilUsta

/-! ## Data model -/

/-- Identifier assigned to a product row by the store. -/
abbrev ProductId := Nat

/-- Product row of the `products` table: `{ id, name, cost, image }`. -/
structure Product where
  id : ProductId
  name : String
  cost : Int
  image : String
deriving DecidableEq, Repr

/-- Cart item `{ product, quantity }` as built in `addProductToCart`. -/
structure CartEntry where
  product : Product
  quantity : Int
deriving DecidableEq, Repr

/-- New-product draft `{ name, cost, image }`; name and cost are the raw text of
the form fields. -/
structure Draft where
  name : String
  cost : String
  image : String
deriving DecidableEq, Repr

/-- State of the `App` component (the `useState` cells that the handlers read or
write; `loading` and `dbInitialized` are never written and are left out). -/
structure AppState where
  page : String
  products : List Product
  cart : List CartEntry
  editingProduct : Option Product
  newProduct : Draft
  pageHistory : List String
deriving DecidableEq, Repr

/-- The draft `setNewProduct` is reset to, also its initial value. -/
def emptyDraft : Draft :=
  { name := "", cost := "", image := "/api/placeholder/200/200" }

/-- Initial values of the `useState` cells (App.jsx lines 59-65). -/
def initialState : AppState :=
  { page := "home"
    products := []
    cart := []
    editingProduct := none
    newProduct := emptyDraft
    pageHistory := ["home"] }

/-! ## Navigation -/

/-- Value of `x || 'home'` where `x` is a string or `undefined`: the empty string
and `undefined` are falsy. -/
def orHome : Option String → String
  | some p => if p = "" then "home" else p
  | none => "home"

/-- Handler `goToPage` (App.jsx lines 86-97). `Array.pop` on an empty array leaves
it empty, as `List.dropLast` does. -/
def goToPage (s : AppState) (pageName : String) : AppState :=
  if pageName = "back" then
    let newHistory := s.pageHistory.dropLast
    let previousPage := orHome newHistory.getLast?
    { s with pageHistory := newHistory, page := previousPage }
  else
    { s with pageHistory := s.pageHistory ++ [pageName], page := pageName }

/-- A sequence of `goToPage` calls, oldest first. -/
def navigate (s : AppState) (names : List String) : AppState :=
  names.foldl goToPage s

/-! ## JavaScript numbers

The results of `*` and `+` on integer-valued doubles: the exact integer result
rounded to the nearest double, ties to even, or an infinity on overflow. The
sign of zero is not kept; it does not show in a sum that starts from `0`. -/

/-- JavaScript number holding an integer, an infinity or `NaN`. -/
inductive JsNumber where
  | finite (value : Int)
  | posInf
  | negInf
  | nan
deriving DecidableEq, Repr

/-- Least `e` with `n / 2 ^ e < 2 ^ 53`, found by halving; the search needs fewer
than `n` steps, so `fuel = n` is enough. -/
def doubleExponent : Nat → Nat → Nat
  | 0, _ => 0
  | fuel + 1, n => if n < 2 ^ 53 then 0 else doubleExponent fuel (n / 2) + 1

/-- A natural number rounded to 53 significant bits, to nearest, ties to even. -/
def roundMagnitude (n : Nat) : Nat :=
  let e := doubleExponent n n
  let q := n / 2 ^ e
  let r := n % 2 ^ e
  if 2 * r < 2 ^ e then q * 2 ^ e
  else if 2 * r = 2 ^ e then (if q % 2 = 0 then q else q + 1) * 2 ^ e
  else (q + 1) * 2 ^ e

/-- The overflow threshold `2 ^ 1024` of doubles, as a product of smaller powers. -/
def doubleOverflow : Nat := 2 ^ 256 * 2 ^ 256 * 2 ^ 256 * 2 ^ 256

/-- The double nearest to an integer: the value a JavaScript operation returns
when its exact result is that integer. -/
def roundToDouble (x : Int) : JsNumber :=
  let m := roundMagnitude x.natAbs
  if doubleOverflow ≤ m then (if x < 0 then JsNumber.negInf else JsNumber.posInf)
  else JsNumber.finite (if x < 0 then -(m : Int) else (m : Int))

/-- The operator `+` on JavaScript numbers. -/
def JsNumber.add : JsNumber → JsNumber → JsNumber
  | JsNumber.nan, _ => JsNumber.nan
  | _, JsNumber.nan => JsNumber.nan
  | JsNumber.posInf, JsNumber.negInf => JsNumber.nan
  | JsNumber.negInf, JsNumber.posInf => JsNumber.nan
  | JsNumber.posInf, _ => JsNumber.posInf
  | _, JsNumber.posInf => JsNumber.posInf
  | JsNumber.negInf, _ => JsNumber.negInf
  | _, JsNumber.negInf => JsNumber.negInf
  | JsNumber.finite a, JsNumber.finite b => roundToDouble (a + b)

/-- The integer held by a finite JavaScript number. -/
def JsNumber.toInt? : JsNumber → Option Int
  | JsNumber.finite value => some value
  | _ => none

/-! ## Cart -/

/-- Handler `addProductToCart` (App.jsx lines 99-111). -/
def addProductToCart (s : AppState) (product : Product) : AppState :=
  match s.cart.find? (fun item => item.product.id == product.id) with
  | some _ =>
    { s with cart := s.cart.map (fun item =>
        if item.product.id == product.id
        then { item with quantity := item.quantity + 1 }
        else item) }
  | none =>
    { s with cart := s.cart ++ [{ product := product, quantity := 1 }] }

/-- Handler `updateCartItemQuantity` (App.jsx lines 113-123). -/
def updateCartItemQuantity (s : AppState) (productId : ProductId) (newQuantity : Int) :
    AppState :=
  if newQuantity < 1 then
    { s with cart := s.cart.filter (fun item => item.product.id != productId) }
  else
    { s with cart := s.cart.map (fun item =>
        if item.product.id == productId
        then { item with quantity := newQuantity }
        else item) }

/-- Function `calculateTotal` (App.jsx lines 125-127): a left fold from 0 whose
step multiplies the two integer fields and adds the product to the total, both
in double arithmetic. -/
def calculateTotal (s : AppState) : JsNumber :=
  s.cart.foldl
    (fun total item => total.add (roundToDouble (item.product.cost * item.quantity)))
    (JsNumber.finite 0)

/-- The same product added `n` times in a row. -/
def addTimes (product : Product) : Nat → AppState → AppState
  | 0, s => s
  | n + 1, s => addTimes product n (addProductToCart s product)

/-! ## Product store

`App.jsx` reaches the `products` table through `supabase.from('products')`.
The client and the service behind it are outside the file; the table below
follows section 4.1 of the specification. -/

/-- The single error kind raised by a failed store round trip. -/
structure StoreError where
  detail : String
deriving DecidableEq, Repr

/-- Payload of `insert`: the draft with its cost converted by `Number`; `none`
stands for a conversion result that is not an integer amount (`NaN`). -/
structure ProductInput where
  name : String
  cost : Option Int
  image : String
deriving DecidableEq, Repr

/-- Requests sent to the store, recorded in the order they are issued. -/
inductive StoreCall where
  | list
  | insert (row : ProductInput)
  | update (product : Product)
  | delete (id : ProductId)
deriving DecidableEq, Repr

/-- Modelled from the spec: the remote `products` table behind the `supabase`
client (section 4.1: ordered list, insert with generated id, update by id,
delete by id, each an independent round trip that may fail with a StoreError).
`faults` scripts the transport: its head tells whether the next round trip
fails; `calls` records the requests made. -/
structure Store where
  rows : List Product
  nextId : ProductId
  faults : List Bool
  calls : List StoreCall
deriving DecidableEq, Repr

/-- Modelled from the spec: one round trip to the store. Records the request,
consumes one transport outcome and reports whether the transport failed. -/
def Store.roundTrip (st : Store) (call : StoreCall) : Bool × Store :=
  (st.faults.head?.getD false,
   { st with faults := st.faults.tail, calls := st.calls ++ [call] })

/-- Modelled from the spec: `list()`, the rows ordered by id ascending. -/
def Store.list (st : Store) : Except StoreError (List Product) × Store :=
  let rt := st.roundTrip StoreCall.list
  if rt.1 then (Except.error { detail := "transport" }, rt.2)
  else (Except.ok (rt.2.rows.insertionSort (fun a b => a.id ≤ b.id)), rt.2)

/-- Modelled from the spec: `insert(row)`, which stores the row under a generated
id and returns it. A row whose cost is not a number is refused (validation). -/
def Store.insert (st : Store) (row : ProductInput) : Except StoreError Product × Store :=
  let rt := st.roundTrip (StoreCall.insert row)
  if rt.1 then (Except.error { detail := "transport" }, rt.2)
  else
    match row.cost with
    | none => (Except.error { detail := "validation" }, rt.2)
    | some cost =>
      let created : Product :=
        { id := rt.2.nextId, name := row.name, cost := cost, image := row.image }
      (Except.ok created,
       { rt.2 with rows := rt.2.rows ++ [created], nextId := rt.2.nextId + 1 })

/-- Modelled from the spec: `update(id, {name, cost, image})`, which fails when no
row has the id and otherwise rewrites the three fields of the rows with that id. -/
def Store.update (st : Store) (product : Product) : Except StoreError Product × Store :=
  let rt := st.roundTrip (StoreCall.update product)
  if rt.1 then (Except.error { detail := "transport" }, rt.2)
  else if rt.2.rows.any (fun r => r.id == product.id) then
    (Except.ok product,
     { rt.2 with rows := rt.2.rows.map (fun r =>
         if r.id == product.id
         then { r with name := product.name, cost := product.cost, image := product.image }
         else r) })
  else (Except.error { detail := "not-found" }, rt.2)

/-- Modelled from the spec: `delete(id)`, which removes the rows with that id;
deleting an id that is not there succeeds. -/
def Store.delete (st : Store) (id : ProductId) : Except StoreError Unit × Store :=
  let rt := st.roundTrip (StoreCall.delete id)
  if rt.1 then (Except.error { detail := "transport" }, rt.2)
  else (Except.ok (), { rt.2 with rows := rt.2.rows.filter (fun r => r.id != id) })

/-! ### The `db` object (App.jsx lines 5-49)

Each method awaits one query, throws its `error` if there is one and returns
its `data` otherwise. -/

/-- Method `db.getProducts`: `select('*').order('id')`. -/
def db.getProducts (st : Store) : Except StoreError (List Product) × Store :=
  st.list

/-- Method `db.addProduct`: `insert([product]).select()`, returning `data[0]`. -/
def db.addProduct (st : Store) (product : ProductInput) : Except StoreError Product × Store :=
  st.insert product

/-- Method `db.updateProduct`: `update({name, cost, image}).eq('id', product.id)`. -/
def db.updateProduct (st : Store) (product : Product) : Except StoreError Product × Store :=
  st.update product

/-- Method `db.deleteProduct`: `delete().eq('id', id)`. -/
def db.deleteProduct (st : Store) (id : ProductId) : Except StoreError Unit × Store :=
  st.delete id

/-! ## Actions that talk to the store -/

/-- Result of an asynchronous handler: the component state and the store after
it has run, and the error passed to `console.error` when its `catch` ran. -/
structure Outcome where
  app : AppState
  store : Store
  logged : Option StoreError
deriving DecidableEq, Repr

/-- Handler `saveProduct` (App.jsx lines 129-148). `toNumber` is the built-in
`Number` applied to the cost text (`none` for `NaN`). A truthy string is a
non-empty one. -/
def saveProduct (toNumber : String → Option Int) (s : AppState) (st : Store) : Outcome :=
  match s.editingProduct with
  | some editing =>
    match db.updateProduct st editing with
    | (Except.error e, st1) => { app := s, store := st1, logged := some e }
    | (Except.ok _, st1) =>
      match db.getProducts st1 with
      | (Except.error e, st2) => { app := s, store := st2, logged := some e }
      | (Except.ok updatedProducts, st2) =>
        { app := { s with products := updatedProducts, editingProduct := none }
          store := st2
          logged := none }
  | none =>
    if s.newProduct.name ≠ "" ∧ s.newProduct.cost ≠ "" then
      match db.addProduct st
          { name := s.newProduct.name
            cost := toNumber s.newProduct.cost
            image := s.newProduct.image } with
      | (Except.error e, st1) => { app := s, store := st1, logged := some e }
      | (Except.ok _, st1) =>
        match db.getProducts st1 with
        | (Except.error e, st2) => { app := s, store := st2, logged := some e }
        | (Except.ok updatedProducts, st2) =>
          { app := { s with products := updatedProducts, newProduct := emptyDraft }
            store := st2
            logged := none }
    else { app := s, store := st, logged := none }

/-- Handler `deleteProduct` (App.jsx lines 150-159). -/
def deleteProduct (s : AppState) (st : Store) (id : ProductId) : Outcome :=
  match db.deleteProduct st id with
  | (Except.error e, st1) => { app := s, store := st1, logged := some e }
  | (Except.ok _, st1) =>
    match db.getProducts st1 with
    | (Except.error e, st2) => { app := s, store := st2, logged := some e }
    | (Except.ok updatedProducts, st2) =>
      { app := { s with
          products := updatedProducts
          cart := s.cart.filter (fun item => item.product.id != id) }
        store := st2
        logged := none }

/-! ## Cart histories -/

/-- The events that write the cart. -/
inductive CartEvent where
  | add (product : Product)
  | setQuantity (productId : ProductId) (newQuantity : Int)
  | delete (id : ProductId)
deriving DecidableEq, Repr

/-- One cart event applied to the component state and the store. -/
def cartStep (x : AppState × Store) : CartEvent → AppState × Store
  | CartEvent.add product => (addProductToCart x.1 product, x.2)
  | CartEvent.setQuantity productId newQuantity =>
    (updateCartItemQuantity x.1 productId newQuantity, x.2)
  | CartEvent.delete id => ((deleteProduct x.1 x.2 id).app, (deleteProduct x.1 x.2 id).store)

/-- A sequence of cart events, oldest first. -/
def cartRun (x : AppState × Store) (events : List CartEvent) : AppState × Store :=
  events.foldl cartStep x

/-! ## Navigation histories -/

/-- Holds when every `goToPage('back')` of the sequence is issued while
`pageHistory` has at least two elements. -/
def backsAboveRoot (s : AppState) : List String → Prop
  | [] => True
  | name :: rest =>
    (name = "back" → 2 ≤ s.pageHistory.length) ∧ backsAboveRoot (goToPage s name) rest

/-- Decision procedure for `backsAboveRoot`, by recursion on the sequence. -/
instance backsAboveRoot.decidable :
    (s : AppState) → (names : List String) → Decidable (backsAboveRoot s names)
  | _, [] => isTrue trivial
  | s, name :: rest =>
    have := backsAboveRoot.decidable (goToPage s name) rest
    inferInstanceAs
      (Decidable ((name = "back" → 2 ≤ s.pageHistory.length) ∧
        backsAboveRoot (goToPage s name) rest))

/-! ## The conversion `Number(text)` -/

/-- White space that `Number` strips from both ends of a string, by code point:
tab, line feed, vertical tab, form feed, carriage return, space, no-break space,
the Unicode space separators, line and paragraph separator, byte order mark. -/
def isStrWhiteSpace (c : Char) : Bool :=
  [9, 10, 11, 12, 13, 32, 160, 5760, 8232, 8233, 8239, 8287, 12288, 65279].contains c.toNat
    || (8192 ≤ c.toNat && c.toNat ≤ 8202)

/-- Value of a run of decimal digits continuing the value `acc`; `none` when a
character is not a decimal digit. -/
def decimalDigits : List Char → Nat → Option Nat
  | [], acc => some acc
  | c :: cs, acc =>
    if c.isDigit then decimalDigits cs (acc * 10 + (c.toNat - 48)) else none

/-- The built-in `Number` applied to a string, for integer amounts: white space
around the text is dropped, the empty text is 0, and decimal digits with an
optional sign are the double nearest to that integer. Every other text gives
`none`: it is `NaN` in JavaScript (as for `'abc'`), or it is written with a
fraction, an exponent, a radix marker or as `Infinity`, forms that this
embedding of integer costs leaves out; a numeral too large for a double gives
`none` as well. -/
def jsNumber (text : String) : Option Int :=
  let body := ((text.data.dropWhile isStrWhiteSpace).reverse.dropWhile isStrWhiteSpace).reverse
  match body with
  | [] => some 0
  | '-' :: d :: ds =>
    (decimalDigits (d :: ds) 0).bind (fun n => (roundToDouble (-(n : Int))).toInt?)
  | '+' :: d :: ds =>
    (decimalDigits (d :: ds) 0).bind (fun n => (roundToDouble (n : Int)).toInt?)
  | ds => (decimalDigits ds 0).bind (fun n => (roundToDouble (n : Int)).toInt?)

/-! ## Cart: basic facts -/

theorem addProductToCart_cart_absent (s : AppState) (p : Product)
    (h : ∀ it ∈ s.cart, it.product.id ≠ p.id) :
    (addProductToCart s p).cart = s.cart ++ [{ product := p, quantity := 1 }] := by
  have hfind : s.cart.find? (fun item => item.product.id == p.id) = none := by
    rw [List.find?_eq_none]
    intro it hit
    simpa using h it hit
  simp [addProductToCart, hfind]

theorem addProductToCart_cart_present (s : AppState) (p : Product)
    (h : ∃ it ∈ s.cart, it.product.id = p.id) :
    (addProductToCart s p).cart = s.cart.map (fun item =>
        if item.product.id == p.id
        then { item with quantity := item.quantity + 1 }
        else item) := by
  obtain ⟨it, hit, hid⟩ := h
  cases hfind : s.cart.find? (fun item => item.product.id == p.id) with
  | none =>
    rw [List.find?_eq_none] at hfind
    have := hfind it hit
    simp [hid] at this
  | some found => simp [addProductToCart, hfind]

theorem addProductToCart_other_fields (s : AppState) (p : Product) :
    (addProductToCart s p).page = s.page ∧
    (addProductToCart s p).products = s.products ∧
    (addProductToCart s p).editingProduct = s.editingProduct ∧
    (addProductToCart s p).newProduct = s.newProduct ∧
    (addProductToCart s p).pageHistory = s.pageHistory := by
  unfold addProductToCart
  split <;> simp

/-- Entries that do not carry the id are fixed by the increment map. -/
theorem map_increment_absent (c : List CartEntry) (pid : ProductId)
    (h : ∀ it ∈ c, it.product.id ≠ pid) :
    c.map (fun item =>
        if item.product.id == pid
        then { item with quantity := item.quantity + 1 }
        else item) = c := by
  calc c.map _ = c.map id := List.map_congr_left (fun it hit => by simp [h it hit])
    _ = c := List.map_id c

/-- Once the product sits at the end of the cart, each further add increments it. -/
theorem addTimes_cart_tail (p : Product) (n : Nat) :
    ∀ (s : AppState) (c : List CartEntry) (k : Int),
      s.cart = c ++ [{ product := p, quantity := k }] →
      (∀ it ∈ c, it.product.id ≠ p.id) →
      (addTimes p n s).cart = c ++ [{ product := p, quantity := k + n }] := by
  induction n with
  | zero => intro s c k hs _; simp [addTimes, hs]
  | succ n ih =>
    intro s c k hs hc
    have hpres : ∃ it ∈ s.cart, it.product.id = p.id :=
      ⟨{ product := p, quantity := k }, by simp [hs], rfl⟩
    have hstep : (addProductToCart s p).cart = c ++ [{ product := p, quantity := k + 1 }] := by
      rw [addProductToCart_cart_present s p hpres, hs, List.map_append, map_increment_absent c p.id hc]
      simp
    have := ih (addProductToCart s p) c (k + 1) hstep hc
    simp only [addTimes, this]
    push_cast
    congr 3
    ring

/-! ## Cart: the claims -/

/-- C1: for every product p, every n at least 1 and every cart without an entry
for p.id, adding p to the cart n times in a row gives a cart whose entries with
product id p.id are exactly one entry, holding p with quantity n (the entries
already in the cart are kept in front of it). -/
theorem addProductToCart_repeat (p : Product) (n : Nat) (s : AppState)
    (hn : 1 ≤ n) (habsent : ∀ it ∈ s.cart, it.product.id ≠ p.id) :
    (addTimes p n s).cart.filter (fun it => it.product.id == p.id)
        = [{ product := p, quantity := (n : Int) }] ∧
    (addTimes p n s).cart = s.cart ++ [{ product := p, quantity := (n : Int) }] := by
  obtain ⟨m, rfl⟩ : ∃ m, n = m + 1 := ⟨n - 1, by omega⟩
  have h1 := addProductToCart_cart_absent s p habsent
  have h2 := addTimes_cart_tail p m (addProductToCart s p) s.cart 1 h1 habsent
  have hcart : (addTimes p (m + 1) s).cart
      = s.cart ++ [{ product := p, quantity := ((m + 1 : Nat) : Int) }] := by
    simp only [addTimes, h2]
    push_cast
    congr 3
    ring
  refine ⟨?_, hcart⟩
  rw [hcart, List.filter_append]
  have hnone : s.cart.filter (fun it => it.product.id == p.id) = [] := by
    rw [List.filter_eq_nil_iff]
    intro it hit
    simpa using habsent it hit
  simp [hnone]

theorem addProductToCart_repeat_witness :
    (addTimes { id := 7, name := "stol", cost := 10000, image := "" } 3 initialState).cart.filter
        (fun it => it.product.id == 7)
      = [{ product := { id := 7, name := "stol", cost := 10000, image := "" }, quantity := 3 }] ∧
    (addTimes { id := 7, name := "stol", cost := 10000, image := "" } 3 initialState).cart
      = initialState.cart ++
        [{ product := { id := 7, name := "stol", cost := 10000, image := "" }, quantity := 3 }] :=
  addProductToCart_repeat { id := 7, name := "stol", cost := 10000, image := "" } 3 initialState
    (by decide) (by intro it hit; simp [initialState] at hit)

/-- Fuel `n` lets `doubleExponent` finish its search: the quotient it leaves fits
in 53 bits. -/
theorem doubleExponent_fits : ∀ (fuel n : Nat), n < 2 ^ 53 * 2 ^ fuel →
    n / 2 ^ doubleExponent fuel n < 2 ^ 53 := by
  intro fuel
  induction fuel with
  | zero => intro n h; simpa [doubleExponent] using h
  | succ k ih =>
    intro n h
    unfold doubleExponent
    split
    · simpa
    · have h2 : n / 2 < 2 ^ 53 * 2 ^ k := by
        rw [pow_succ] at h
        omega
      have := ih (n / 2) h2
      rw [pow_succ, mul_comm, ← Nat.div_div_eq_div_mul]
      exact this

/-- With fuel `n` the search of `doubleExponent` on `n` ends with a 53-bit
quotient, for every `n`. -/
theorem doubleExponent_self_fits (n : Nat) : n / 2 ^ doubleExponent n n < 2 ^ 53 := by
  apply doubleExponent_fits
  have h1 : n < 2 ^ n := Nat.lt_two_pow n
  have h2 : 2 ^ n ≤ 2 ^ 53 * 2 ^ n := Nat.le_mul_of_pos_left _ (by positivity)
  omega

/-- Safe integers (magnitude below 2^53) are doubles: rounding keeps them. -/
theorem roundToDouble_safe (x : Int) (h : |x| < 2 ^ 53) :
    roundToDouble x = JsNumber.finite x := by
  have hn : x.natAbs < 2 ^ 53 := by
    have := abs_lt.mp h
    omega
  have he : doubleExponent x.natAbs x.natAbs = 0 := by
    cases hx : x.natAbs with
    | zero => rfl
    | succ m =>
      rw [hx] at hn
      unfold doubleExponent
      rw [if_pos hn]
  have hm : roundMagnitude x.natAbs = x.natAbs := by
    simp [roundMagnitude, he, Nat.mod_one]
  have hover : ¬ doubleOverflow ≤ x.natAbs := by
    have : (2 : Nat) ^ 53 ≤ doubleOverflow := by decide
    omega
  simp only [roundToDouble, hm, hover, if_false]
  congr 1
  split <;> omega

/-- The fold of `calculateTotal` from a finite start value, as long as every
product and every partial sum stays a safe integer. -/
theorem foldl_total_safe (c : List CartEntry) :
    ∀ a : Int,
      (∀ it ∈ c, |it.product.cost * it.quantity| < 2 ^ 53) →
      (∀ k : Nat,
        |a + ((c.take k).map (fun item => item.product.cost * item.quantity)).sum| < 2 ^ 53) →
      c.foldl
          (fun total item => total.add (roundToDouble (item.product.cost * item.quantity)))
          (JsNumber.finite a)
        = JsNumber.finite
            (a + (c.map (fun item => item.product.cost * item.quantity)).sum) := by
  induction c with
  | nil => intro a _ _; simp
  | cons x xs ih =>
    intro a hprod hsum
    have hx : |x.product.cost * x.quantity| < 2 ^ 53 := hprod x (List.mem_cons_self _ _)
    have h1 : |a + x.product.cost * x.quantity| < 2 ^ 53 := by
      simpa using hsum 1
    have hstep : (JsNumber.finite a).add (roundToDouble (x.product.cost * x.quantity))
        = JsNumber.finite (a + x.product.cost * x.quantity) := by
      rw [roundToDouble_safe _ hx]
      show roundToDouble (a + x.product.cost * x.quantity) = _
      exact roundToDouble_safe _ h1
    have hrest := ih (a + x.product.cost * x.quantity)
      (fun it hit => hprod it (List.mem_cons_of_mem _ hit))
      (fun k => by
        have := hsum (k + 1)
        simpa [add_assoc] using this)
    simp only [List.foldl_cons, hstep, hrest, List.map_cons, List.sum_cons, add_assoc]

/-- C2, as stated, fails: for the cart [(cost 2^53, quantity 1), (cost 1,
quantity 1)] the sum of cost * quantity is 9007199254740993, but the double
addition of calculateTotal rounds it and returns 9007199254740992. -/
theorem calculateTotal_rounds_large_sum :
    calculateTotal
        { initialState with cart :=
          [{ product := { id := 1, name := "stol", cost := 9007199254740992, image := "" },
             quantity := 1 },
           { product := { id := 2, name := "stul", cost := 1, image := "" },
             quantity := 1 }] }
      = JsNumber.finite 9007199254740992 ∧
    (([{ product := { id := 1, name := "stol", cost := 9007199254740992, image := "" },
         quantity := 1 },
       { product := { id := 2, name := "stul", cost := 1, image := "" },
         quantity := 1 }] : List CartEntry).map
        (fun item => item.product.cost * item.quantity)).sum = 9007199254740993 := by
  decide

/-- C2, amended: for every cart of integer costs and quantities in which each
product cost * quantity and each partial sum of these products, taken in cart
order, is a safe integer (magnitude below 2^53), calculateTotal returns the sum
over all cart entries of product.cost * quantity; it returns 0 for the empty
cart, and for the cart [(cost 10000, quantity 2), (cost 5000, quantity 1)] it
returns 25000. -/
theorem calculateTotal_safe_sum (s : AppState) (p1 p2 : Product)
    (hprod : ∀ it ∈ s.cart, |it.product.cost * it.quantity| < 2 ^ 53)
    (hsum : ∀ k : Nat,
      |((s.cart.take k).map (fun item => item.product.cost * item.quantity)).sum| < 2 ^ 53) :
    calculateTotal s
      = JsNumber.finite ((s.cart.map (fun item => item.product.cost * item.quantity)).sum) ∧
    calculateTotal { s with cart := [] } = JsNumber.finite 0 ∧
    calculateTotal { s with cart :=
        [{ product := { p1 with cost := 10000 }, quantity := 2 },
         { product := { p2 with cost := 5000 }, quantity := 1 }] }
      = JsNumber.finite 25000 := by
  refine ⟨?_, rfl, ?_⟩
  · have := foldl_total_safe s.cart 0 hprod (fun k => by simpa using hsum k)
    simpa [calculateTotal] using this
  · have hfold := foldl_total_safe
      [{ product := { p1 with cost := 10000 }, quantity := 2 },
       { product := { p2 with cost := 5000 }, quantity := 1 }] 0
      (by
        intro it hit
        simp only [List.mem_cons, List.mem_singleton, List.not_mem_nil, or_false] at hit
        rcases hit with rfl | rfl <;> simp only [abs_lt] <;> constructor <;> norm_num)
      (by
        intro k
        match k with
        | 0 => simp
        | 1 => simp only [abs_lt]; constructor <;> norm_num
        | (n + 2) => simp only [abs_lt]; constructor <;> norm_num)
    have hvalue : (0 : Int) + (([{ product := { p1 with cost := 10000 }, quantity := 2 },
        { product := { p2 with cost := 5000 }, quantity := 1 }] : List CartEntry).map
          (fun item => item.product.cost * item.quantity)).sum = 25000 := by
      norm_num
    rw [hvalue] at hfold
    exact hfold

theorem calculateTotal_safe_sum_witness :
    calculateTotal
        { initialState with cart :=
          [{ product := { id := 1, name := "stol", cost := 10000, image := "" }, quantity := 2 },
           { product := { id := 2, name := "stul", cost := 5000, image := "" }, quantity := 1 }] }
      = JsNumber.finite 25000 :=
  (calculateTotal_safe_sum
      { initialState with cart :=
        [{ product := { id := 1, name := "stol", cost := 10000, image := "" }, quantity := 2 },
         { product := { id := 2, name := "stul", cost := 5000, image := "" }, quantity := 1 }] }
      { id := 1, name := "stol", cost := 10000, image := "" }
      { id := 2, name := "stul", cost := 5000, image := "" }
      (by decide)
      (by
        intro k
        match k with
        | 0 => decide
        | 1 => decide
        | (n + 2) => simp [initialState])).1

/-- C3: for every cart, product id and integer n below 1, updateCartItemQuantity
leaves no entry with that product id, keeps every other entry unchanged and in
the same order (the result is a sublist of the cart in which every entry with
another id occurs as often as before), and returns the cart unchanged when it
had no entry with that id. -/
theorem updateCartItemQuantity_remove (s : AppState) (productId : ProductId) (n : Int)
    (hn : n < 1) :
    (∀ it ∈ (updateCartItemQuantity s productId n).cart, it.product.id ≠ productId) ∧
    (updateCartItemQuantity s productId n).cart.Sublist s.cart ∧
    (∀ it : CartEntry, it.product.id ≠ productId →
      (updateCartItemQuantity s productId n).cart.count it = s.cart.count it) ∧
    ((∀ it ∈ s.cart, it.product.id ≠ productId) →
      (updateCartItemQuantity s productId n).cart = s.cart) := by
  have hcart : (updateCartItemQuantity s productId n).cart
      = s.cart.filter (fun item => item.product.id != productId) := by
    simp [updateCartItemQuantity, hn]
  rw [hcart]
  refine ⟨?_, List.filter_sublist _, ?_, ?_⟩
  · intro it hit
    simpa using (List.mem_filter.mp hit).2
  · intro it hid
    exact List.count_filter (by simpa using hid)
  · intro habsent
    rw [List.filter_eq_self]
    intro it hit
    simpa using habsent it hit

theorem updateCartItemQuantity_remove_witness :
    (∀ it ∈ (updateCartItemQuantity
        { initialState with cart :=
          [{ product := { id := 1, name := "stol", cost := 10000, image := "" }, quantity := 2 },
           { product := { id := 2, name := "stul", cost := 5000, image := "" }, quantity := 1 }] }
        1 (-5)).cart, it.product.id ≠ 1) ∧
    (updateCartItemQuantity
        { initialState with cart :=
          [{ product := { id := 1, name := "stol", cost := 10000, image := "" }, quantity := 2 },
           { product := { id := 2, name := "stul", cost := 5000, image := "" }, quantity := 1 }] }
        1 (-5)).cart
      = [{ product := { id := 2, name := "stul", cost := 5000, image := "" }, quantity := 1 }] :=
  ⟨(updateCartItemQuantity_remove
      { initialState with cart :=
        [{ product := { id := 1, name := "stol", cost := 10000, image := "" }, quantity := 2 },
         { product := { id := 2, name := "stul", cost := 5000, image := "" }, quantity := 1 }] }
      1 (-5) (by decide)).1,
   by decide⟩

/-- C4: for every cart, product id and integer n at least 1, updateCartItemQuantity
creates no entry: the result has the same length and the same product snapshots
in the same order, every entry with that id has quantity n, every entry with
another id is unchanged at its position, and a cart without an entry for the id
is returned unchanged. -/
theorem updateCartItemQuantity_set (s : AppState) (productId : ProductId) (n : Int)
    (hn : 1 ≤ n) :
    (updateCartItemQuantity s productId n).cart.length = s.cart.length ∧
    (updateCartItemQuantity s productId n).cart.map (fun it => it.product)
      = s.cart.map (fun it => it.product) ∧
    (∀ it ∈ (updateCartItemQuantity s productId n).cart,
      it.product.id = productId → it.quantity = n) ∧
    (∀ (i : Nat) (it : CartEntry), s.cart[i]? = some it → it.product.id ≠ productId →
      (updateCartItemQuantity s productId n).cart[i]? = some it) ∧
    ((∀ it ∈ s.cart, it.product.id ≠ productId) →
      (updateCartItemQuantity s productId n).cart = s.cart) := by
  have hcart : (updateCartItemQuantity s productId n).cart
      = s.cart.map (fun item =>
          if item.product.id == productId
          then { item with quantity := n }
          else item) := by
    have : ¬ n < 1 := by omega
    simp [updateCartItemQuantity, this]
  rw [hcart]
  refine ⟨List.length_map _ _, ?_, ?_, ?_, ?_⟩
  · rw [List.map_map]
    apply List.map_congr_left
    intro it _
    by_cases h : it.product.id = productId <;> simp [h]
  · intro it hit hid
    obtain ⟨src, _, hsrc⟩ := List.mem_map.mp hit
    by_cases h : src.product.id = productId
    · simp [h] at hsrc
      rw [← hsrc]
    · simp [h] at hsrc
      rw [← hsrc] at hid
      exact absurd hid h
  · intro i it hget hid
    rw [List.getElem?_map, hget]
    simp [hid]
  · intro habsent
    calc s.cart.map _ = s.cart.map id :=
          List.map_congr_left (fun it hit => by simp [habsent it hit])
      _ = s.cart := List.map_id _

theorem updateCartItemQuantity_set_witness :
    (updateCartItemQuantity
        { initialState with cart :=
          [{ product := { id := 1, name := "stol", cost := 10000, image := "" }, quantity := 2 },
           { product := { id := 2, name := "stul", cost := 5000, image := "" }, quantity := 1 }] }
        2 4).cart
      = [{ product := { id := 1, name := "stol", cost := 10000, image := "" }, quantity := 2 },
         { product := { id := 2, name := "stul", cost := 5000, image := "" }, quantity := 4 }] ∧
    (updateCartItemQuantity
        { initialState with cart :=
          [{ product := { id := 1, name := "stol", cost := 10000, image := "" }, quantity := 2 },
           { product := { id := 2, name := "stul", cost := 5000, image := "" }, quantity := 1 }] }
        2 4).cart.length = 2 :=
  ⟨by decide,
   (updateCartItemQuantity_set
      { initialState with cart :=
        [{ product := { id := 1, name := "stol", cost := 10000, image := "" }, quantity := 2 },
         { product := { id := 2, name := "stul", cost := 5000, image := "" }, quantity := 1 }] }
      2 4 (by decide)).1⟩

/-! ## Store: basic facts -/

theorem Store.delete_ok_rows (st st1 : Store) (id : ProductId)
    (h : st.delete id = (Except.ok (), st1)) :
    ∀ r ∈ st1.rows, r.id ≠ id := by
  simp only [Store.delete] at h
  split at h
  · simp at h
  · simp only [Prod.mk.injEq, true_and] at h
    subst h
    intro r hr
    simpa using (List.mem_filter.mp hr).2

theorem Store.list_ok_mem (st st1 : Store) (ps : List Product)
    (h : st.list = (Except.ok ps, st1)) :
    st1.rows = st.rows ∧ ∀ p, p ∈ ps ↔ p ∈ st.rows := by
  simp only [Store.list] at h
  split at h
  · simp at h
  · simp only [Prod.mk.injEq, Except.ok.injEq] at h
    obtain ⟨hps, hst⟩ := h
    subst hps hst
    refine ⟨rfl, fun p => ?_⟩
    exact (List.perm_insertionSort _ _).mem_iff

/-! ## Store: the claims -/

/-- C5: with the store modelled as a table offering list and delete-by-id, when
deleteProduct(id) runs and both the store delete and the list that follows it
succeed, the resulting cart has no entry whose product id is id, the resulting
products list is the list the store returned after the delete, and it holds no
product with that id. -/
theorem deleteProduct_success (s : AppState) (st st1 st2 : Store) (id : ProductId)
    (ps : List Product)
    (hdel : db.deleteProduct st id = (Except.ok (), st1))
    (hlist : db.getProducts st1 = (Except.ok ps, st2)) :
    (∀ it ∈ (deleteProduct s st id).app.cart, it.product.id ≠ id) ∧
    (∀ p ∈ (deleteProduct s st id).app.products, p.id ≠ id) ∧
    (deleteProduct s st id).app.products = ps ∧
    (deleteProduct s st id).store = st2 ∧
    (deleteProduct s st id).logged = none := by
  have hrun : deleteProduct s st id =
      { app := { s with
          products := ps
          cart := s.cart.filter (fun item => item.product.id != id) }
        store := st2
        logged := none } := by
    simp only [deleteProduct, hdel, hlist]
  rw [hrun]
  refine ⟨?_, ?_, rfl, rfl, rfl⟩
  · intro it hit
    simpa using (List.mem_filter.mp hit).2
  · intro p hp
    have hrows := Store.delete_ok_rows st st1 id hdel
    have hmem := (Store.list_ok_mem st1 st2 ps hlist).2 p
    exact hrows p (hmem.mp hp)

theorem deleteProduct_success_witness :
    (deleteProduct
        { initialState with
          products :=
            [{ id := 1, name := "stol", cost := 10000, image := "" },
             { id := 2, name := "stul", cost := 5000, image := "" }]
          cart :=
            [{ product := { id := 2, name := "stul", cost := 5000, image := "" },
               quantity := 3 }] }
        { rows :=
            [{ id := 2, name := "stul", cost := 5000, image := "" },
             { id := 1, name := "stol", cost := 10000, image := "" }]
          nextId := 3, faults := [], calls := [] }
        2).app.products
      = [{ id := 1, name := "stol", cost := 10000, image := "" }] :=
  (deleteProduct_success
      { initialState with
        products :=
          [{ id := 1, name := "stol", cost := 10000, image := "" },
           { id := 2, name := "stul", cost := 5000, image := "" }]
        cart :=
          [{ product := { id := 2, name := "stul", cost := 5000, image := "" },
             quantity := 3 }] }
      { rows :=
          [{ id := 2, name := "stul", cost := 5000, image := "" },
           { id := 1, name := "stol", cost := 10000, image := "" }]
        nextId := 3, faults := [], calls := [] }
      { rows := [{ id := 1, name := "stol", cost := 10000, image := "" }]
        nextId := 3, faults := [], calls := [StoreCall.delete 2] }
      { rows := [{ id := 1, name := "stol", cost := 10000, image := "" }]
        nextId := 3, faults := [], calls := [StoreCall.delete 2, StoreCall.list] }
      2
      [{ id := 1, name := "stol", cost := 10000, image := "" }]
      rfl rfl).2.2.1

/-- C6: with store calls returning a value or a StoreError, whichever store call
of saveProduct (update or insert, or the list after it) or of deleteProduct
(delete, or the list after it) fails, the component state after the action
(products, cart, editingProduct, newProduct and the rest) is the state before
it and the error is the one logged; conversely the state is unchanged whenever
the catch block ran. -/
theorem store_failure_keeps_state (toNumber : String → Option Int) (s : AppState)
    (st : Store) (id : ProductId) :
    (∀ editing e st1, s.editingProduct = some editing →
      db.updateProduct st editing = (Except.error e, st1) →
      saveProduct toNumber s st = { app := s, store := st1, logged := some e }) ∧
    (∀ editing r e st1 st2, s.editingProduct = some editing →
      db.updateProduct st editing = (Except.ok r, st1) →
      db.getProducts st1 = (Except.error e, st2) →
      saveProduct toNumber s st = { app := s, store := st2, logged := some e }) ∧
    (∀ e st1, s.editingProduct = none → s.newProduct.name ≠ "" → s.newProduct.cost ≠ "" →
      db.addProduct st
          { name := s.newProduct.name
            cost := toNumber s.newProduct.cost
            image := s.newProduct.image } = (Except.error e, st1) →
      saveProduct toNumber s st = { app := s, store := st1, logged := some e }) ∧
    (∀ r e st1 st2, s.editingProduct = none → s.newProduct.name ≠ "" →
      s.newProduct.cost ≠ "" →
      db.addProduct st
          { name := s.newProduct.name
            cost := toNumber s.newProduct.cost
            image := s.newProduct.image } = (Except.ok r, st1) →
      db.getProducts st1 = (Except.error e, st2) →
      saveProduct toNumber s st = { app := s, store := st2, logged := some e }) ∧
    (∀ e st1, db.deleteProduct st id = (Except.error e, st1) →
      deleteProduct s st id = { app := s, store := st1, logged := some e }) ∧
    (∀ e st1 st2, db.deleteProduct st id = (Except.ok (), st1) →
      db.getProducts st1 = (Except.error e, st2) →
      deleteProduct s st id = { app := s, store := st2, logged := some e }) ∧
    ((saveProduct toNumber s st).logged ≠ none → (saveProduct toNumber s st).app = s) ∧
    ((deleteProduct s st id).logged ≠ none → (deleteProduct s st id).app = s) := by
  refine ⟨?_, ?_, ?_, ?_, ?_, ?_, ?_, ?_⟩
  · intro editing e st1 hed hupd
    simp only [saveProduct, hed, hupd]
  · intro editing r e st1 st2 hed hupd hlist
    simp only [saveProduct, hed, hupd, hlist]
  · intro e st1 hed hname hcost hadd
    simp only [saveProduct, hed, hadd]
    simp [hname, hcost]
  · intro r e st1 st2 hed hname hcost hadd hlist
    simp only [saveProduct, hed, hadd, hlist]
    simp [hname, hcost]
  · intro e st1 hdel
    simp only [deleteProduct, hdel]
  · intro e st1 st2 hdel hlist
    simp only [deleteProduct, hdel, hlist]
  · unfold saveProduct
    split
    · split
      · intro _; rfl
      · split
        · intro _; rfl
        · intro h; exact absurd rfl h
    · split
      · split
        · intro _; rfl
        · split
          · intro _; rfl
          · intro h; exact absurd rfl h
      · intro _; rfl
  · unfold deleteProduct
    split
    · intro _; rfl
    · split
      · intro _; rfl
      · intro h; exact absurd rfl h

theorem store_failure_keeps_state_witness :
    db.addProduct
        { rows := [{ id := 1, name := "stol", cost := 10000, image := "" }]
          nextId := 2, faults := [true], calls := [] }
        { name := "stul", cost := some 5000, image := "" }
      = (Except.error { detail := "transport" },
         { rows := [{ id := 1, name := "stol", cost := 10000, image := "" }]
           nextId := 2, faults := []
           calls := [StoreCall.insert { name := "stul", cost := some 5000, image := "" }] }) ∧
    (saveProduct (fun _ => some 5000)
        { initialState with
          products := [{ id := 1, name := "stol", cost := 10000, image := "" }]
          newProduct := { name := "stul", cost := "5000", image := "" } }
        { rows := [{ id := 1, name := "stol", cost := 10000, image := "" }]
          nextId := 2, faults := [true], calls := [] }).app
      = { initialState with
          products := [{ id := 1, name := "stol", cost := 10000, image := "" }]
          newProduct := { name := "stul", cost := "5000", image := "" } } :=
  ⟨rfl,
   congrArg Outcome.app
     ((store_failure_keeps_state (fun _ => some 5000)
        { initialState with
          products := [{ id := 1, name := "stol", cost := 10000, image := "" }]
          newProduct := { name := "stul", cost := "5000", image := "" } }
        { rows := [{ id := 1, name := "stol", cost := 10000, image := "" }]
          nextId := 2, faults := [true], calls := [] }
        0).2.2.1
      { detail := "transport" }
      { rows := [{ id := 1, name := "stol", cost := 10000, image := "" }]
        nextId := 2, faults := []
        calls := [StoreCall.insert { name := "stul", cost := some 5000, image := "" }] }
      rfl (by decide) (by decide) rfl)⟩

/-! ## Navigation: basic facts -/

theorem goToPage_forward (s : AppState) (name : String) (h : name ≠ "back") :
    goToPage s name = { s with pageHistory := s.pageHistory ++ [name], page := name } := by
  simp [goToPage, h]

theorem goToPage_back (s : AppState) :
    goToPage s "back" =
      { s with pageHistory := s.pageHistory.dropLast
               page := orHome s.pageHistory.dropLast.getLast? } := by
  simp [goToPage]

theorem navigate_append (s : AppState) (xs ys : List String) :
    navigate s (xs ++ ys) = navigate (navigate s xs) ys := by
  simp [navigate, List.foldl_append]

/-- At the floor (history of length at most one) going back shows the home page
and leaves an empty history. -/
theorem goToPage_back_floor (s : AppState) (h : s.pageHistory.length ≤ 1) :
    (goToPage s "back").page = "home" ∧ (goToPage s "back").pageHistory = [] := by
  rw [goToPage_back]
  match hh : s.pageHistory, h with
  | [], _ => simp [orHome]
  | [x], _ => simp [orHome]

theorem navigate_back_floor (k : Nat) :
    ∀ s : AppState, s.pageHistory.length ≤ 1 → s.page = "home" →
      (navigate s (List.replicate k "back")).page = "home" := by
  induction k with
  | zero => intro s _ hp; simpa [navigate] using hp
  | succ k ih =>
    intro s hlen _
    have hstep := goToPage_back_floor s hlen
    have hrun : navigate s (List.replicate (k + 1) "back")
        = navigate (goToPage s "back") (List.replicate k "back") := by
      simp [navigate, List.replicate_succ]
    rw [hrun]
    exact ih (goToPage s "back") (by simp [hstep.2]) hstep.1

/-- One guarded step keeps the home page at the bottom of the history. -/
theorem goToPage_keeps_root (s : AppState) (name : String)
    (hroot : s.pageHistory.head? = some "home")
    (hguard : name = "back" → 2 ≤ s.pageHistory.length) :
    (goToPage s name).pageHistory.head? = some "home" := by
  by_cases hb : name = "back"
  · subst hb
    rw [goToPage_back]
    match hh : s.pageHistory, hroot, hguard rfl with
    | x :: y :: rest, hx, _ => simpa using hx
  · rw [goToPage_forward s name hb]
    match hh : s.pageHistory, hroot with
    | x :: rest, hx => simpa using hx

theorem navigate_keeps_root (names : List String) :
    ∀ s : AppState, s.pageHistory.head? = some "home" → backsAboveRoot s names →
      (navigate s names).pageHistory.head? = some "home" := by
  induction names with
  | nil => intro s h _; simpa [navigate] using h
  | cons name rest ih =>
    intro s hroot hguard
    have hstep := goToPage_keeps_root s name hroot hguard.1
    have := ih (goToPage s name) hstep hguard.2
    simpa [navigate] using this

/-! ## Navigation: the claims -/

/-- C7: from the initial navigation state, for all non-empty page identifiers a
and b other than the reserved word back: after goToPage(a), goToPage(b),
goToPage(back) the current page is a; after one more goToPage(back) it is home;
and after any further number of goToPage(back) calls it is still home. -/
theorem goToPage_back_sequence (a b : String)
    (ha : a ≠ "") (ha2 : a ≠ "back") (_hb : b ≠ "") (hb2 : b ≠ "back") :
    (navigate initialState [a, b, "back"]).page = a ∧
    (navigate initialState [a, b, "back", "back"]).page = "home" ∧
    ∀ k : Nat,
      (navigate initialState ([a, b, "back", "back"] ++ List.replicate k "back")).page
        = "home" := by
  have h3 : navigate initialState [a, b, "back"]
      = { initialState with pageHistory := ["home", a], page := a } := by
    simp [navigate, goToPage_forward _ a ha2, goToPage_forward _ b hb2, goToPage_back,
      initialState, orHome, ha]
  have h4 : navigate initialState [a, b, "back", "back"]
      = { initialState with pageHistory := ["home"], page := "home" } := by
    have : [a, b, "back", "back"] = [a, b, "back"] ++ ["back"] := rfl
    rw [this, navigate_append, h3]
    simp [navigate, goToPage_back, orHome]
  refine ⟨by rw [h3], by rw [h4], fun k => ?_⟩
  rw [navigate_append, h4]
  exact navigate_back_floor k _ (by simp) rfl

theorem goToPage_back_sequence_witness :
    (navigate initialState ["hisoblash", "tanlanganlar", "back"]).page = "hisoblash" ∧
    (navigate initialState ["hisoblash", "tanlanganlar", "back", "back"]).page = "home" ∧
    (navigate initialState
      (["hisoblash", "tanlanganlar", "back", "back"] ++ List.replicate 3 "back")).page
        = "home" :=
  ⟨(goToPage_back_sequence "hisoblash" "tanlanganlar"
      (by decide) (by decide) (by decide) (by decide)).1,
   (goToPage_back_sequence "hisoblash" "tanlanganlar"
      (by decide) (by decide) (by decide) (by decide)).2.1,
   (goToPage_back_sequence "hisoblash" "tanlanganlar"
      (by decide) (by decide) (by decide) (by decide)).2.2 3⟩

/-- C8, as stated, fails: one goToPage(back) from the initial state leaves an
empty pageHistory, and a page opened after that is alone in the history
without being home. -/
theorem back_empties_pageHistory :
    (navigate initialState ["back"]).pageHistory.length = 0 ∧
    (navigate initialState ["back", "hisoblash"]).pageHistory = ["hisoblash"] := by
  decide

/-- C8, amended: in every navigation state reached from the initial state by a
sequence of goToPage calls in which back is only issued while pageHistory has
at least two elements, pageHistory starts with home, so it has length at least
1 and when it has length exactly 1 its only element is home. -/
theorem pageHistory_root (names : List String) (h : backsAboveRoot initialState names) :
    (navigate initialState names).pageHistory.head? = some "home" ∧
    1 ≤ (navigate initialState names).pageHistory.length ∧
    ((navigate initialState names).pageHistory.length = 1 →
      (navigate initialState names).pageHistory = ["home"]) := by
  have hroot := navigate_keeps_root names initialState rfl h
  match hh : (navigate initialState names).pageHistory, hroot with
  | x :: rest, hx =>
    simp only [List.head?_cons, Option.some.injEq] at hx
    subst hx
    refine ⟨rfl, by simp, fun hlen => ?_⟩
    have : rest = [] := by
      cases rest with
      | nil => rfl
      | cons y ys => simp at hlen
    rw [this]

theorem pageHistory_root_witness :
    backsAboveRoot initialState ["hisoblash", "tanlanganlar", "back", "back"] ∧
    (navigate initialState ["hisoblash", "tanlanganlar", "back", "back"]).pageHistory
      = ["home"] :=
  ⟨by decide,
   (pageHistory_root ["hisoblash", "tanlanganlar", "back", "back"] (by decide)).2.2
     (by decide)⟩

/-! ## Cart histories: invariants -/

/-- The product ids of a cart, in cart order. -/
theorem map_quantity_ids (c : List CartEntry) (pid : ProductId) (q : CartEntry → Int) :
    (c.map (fun item =>
        if item.product.id == pid then { item with quantity := q item } else item)).map
      (fun it => it.product.id) = c.map (fun it => it.product.id) := by
  rw [List.map_map]
  apply List.map_congr_left
  intro it _
  by_cases h : it.product.id = pid <;> simp [h]

theorem deleteProduct_cart (s : AppState) (st : Store) (id : ProductId) :
    (deleteProduct s st id).app.cart = s.cart ∨
    (deleteProduct s st id).app.cart
      = s.cart.filter (fun item => item.product.id != id) := by
  unfold deleteProduct
  split
  · exact Or.inl rfl
  · split
    · exact Or.inl rfl
    · exact Or.inr rfl

theorem addProductToCart_cart_cases (s : AppState) (p : Product) :
    ((∀ it ∈ s.cart, it.product.id ≠ p.id) ∧
      (addProductToCart s p).cart = s.cart ++ [{ product := p, quantity := 1 }]) ∨
    (addProductToCart s p).cart = s.cart.map (fun item =>
        if item.product.id == p.id
        then { item with quantity := item.quantity + 1 }
        else item) := by
  by_cases h : ∃ it ∈ s.cart, it.product.id = p.id
  · exact Or.inr (addProductToCart_cart_present s p h)
  · have habsent : ∀ it ∈ s.cart, it.product.id ≠ p.id :=
      fun it hit hid => h ⟨it, hit, hid⟩
    exact Or.inl ⟨habsent, addProductToCart_cart_absent s p habsent⟩

theorem updateCartItemQuantity_cart_cases (s : AppState) (pid : ProductId) (n : Int) :
    (n < 1 ∧ (updateCartItemQuantity s pid n).cart
        = s.cart.filter (fun item => item.product.id != pid)) ∨
    (1 ≤ n ∧ (updateCartItemQuantity s pid n).cart = s.cart.map (fun item =>
        if item.product.id == pid then { item with quantity := n } else item)) := by
  by_cases h : n < 1
  · exact Or.inl ⟨h, by simp [updateCartItemQuantity, h]⟩
  · exact Or.inr ⟨by omega, by simp [updateCartItemQuantity, h]⟩

/-- One cart event keeps the product ids of the cart pairwise distinct. -/
theorem cartStep_nodup (x : AppState × Store) (ev : CartEvent)
    (h : (x.1.cart.map (fun it => it.product.id)).Nodup) :
    ((cartStep x ev).1.cart.map (fun it => it.product.id)).Nodup := by
  cases ev with
  | add p =>
    simp only [cartStep]
    rcases addProductToCart_cart_cases x.1 p with ⟨habsent, hc⟩ | hc
    · rw [hc, List.map_append]
      refine List.Nodup.append h (by simp) ?_
      intro i hi hi2
      simp only [List.map_cons, List.map_nil, List.mem_singleton] at hi2
      obtain ⟨it, hit, hid⟩ := List.mem_map.mp hi
      exact habsent it hit (hid.trans hi2)
    · rw [hc, map_quantity_ids x.1.cart p.id (fun item => item.quantity + 1)]
      exact h
  | setQuantity pid n =>
    simp only [cartStep]
    rcases updateCartItemQuantity_cart_cases x.1 pid n with ⟨_, hc⟩ | ⟨_, hc⟩
    · rw [hc]
      exact h.sublist ((List.filter_sublist _).map _)
    · rw [hc, map_quantity_ids x.1.cart pid (fun _ => n)]
      exact h
  | delete id =>
    simp only [cartStep]
    rcases deleteProduct_cart x.1 x.2 id with hc | hc
    · rw [hc]; exact h
    · rw [hc]
      exact h.sublist ((List.filter_sublist _).map _)

/-- One cart event keeps every quantity at 1 or more. -/
theorem cartStep_positive (x : AppState × Store) (ev : CartEvent)
    (h : ∀ it ∈ x.1.cart, 1 ≤ it.quantity) :
    ∀ it ∈ (cartStep x ev).1.cart, 1 ≤ it.quantity := by
  cases ev with
  | add p =>
    simp only [cartStep]
    rcases addProductToCart_cart_cases x.1 p with ⟨_, hc⟩ | hc
    · rw [hc]
      intro it hit
      rcases List.mem_append.mp hit with hold | hnew
      · exact h it hold
      · simp only [List.mem_singleton] at hnew
        subst hnew
        exact le_refl _
    · rw [hc]
      intro it hit
      obtain ⟨src, hsrc, heq⟩ := List.mem_map.mp hit
      have hq := h src hsrc
      by_cases hid : src.product.id = p.id
      · simp [hid] at heq
        rw [← heq]
        show 1 ≤ src.quantity + 1
        omega
      · simp [hid] at heq
        rw [← heq]
        exact hq
  | setQuantity pid n =>
    simp only [cartStep]
    rcases updateCartItemQuantity_cart_cases x.1 pid n with ⟨_, hc⟩ | ⟨hn, hc⟩
    · rw [hc]
      intro it hit
      exact h it (List.mem_filter.mp hit).1
    · rw [hc]
      intro it hit
      obtain ⟨src, hsrc, heq⟩ := List.mem_map.mp hit
      by_cases hid : src.product.id = pid
      · simp [hid] at heq
        rw [← heq]
        exact hn
      · simp [hid] at heq
        rw [← heq]
        exact h src hsrc
  | delete id =>
    simp only [cartStep]
    rcases deleteProduct_cart x.1 x.2 id with hc | hc
    · rw [hc]; exact h
    · rw [hc]
      intro it hit
      exact h it (List.mem_filter.mp hit).1

/-- C9: in every cart reached from the empty cart by any sequence of
addProductToCart(p), updateCartItemQuantity(id, n) with any integer n, and
deleteProduct(id) against any store (whose success filters the cart), no two
entries have the same product id. -/
theorem cart_ids_distinct (st : Store) (events : List CartEvent) :
    ((cartRun (initialState, st) events).1.cart.map (fun it => it.product.id)).Nodup := by
  have key : ∀ (evs : List CartEvent) (x : AppState × Store),
      (x.1.cart.map (fun it => it.product.id)).Nodup →
      ((cartRun x evs).1.cart.map (fun it => it.product.id)).Nodup := by
    intro evs
    induction evs with
    | nil => intro x hx; simpa [cartRun] using hx
    | cons ev rest ih =>
      intro x hx
      have := ih (cartStep x ev) (cartStep_nodup x ev hx)
      simpa [cartRun] using this
  exact key events (initialState, st) (by simp [initialState])

/-- C10: in every cart reached from the empty cart by any sequence of
addProductToCart(p), updateCartItemQuantity(id, n) with any integer n, and
deleteProduct(id) against any store (whose success filters the cart), every
entry has quantity at least 1. -/
theorem cart_quantities_positive (st : Store) (events : List CartEvent) :
    ∀ it ∈ (cartRun (initialState, st) events).1.cart, 1 ≤ it.quantity := by
  have key : ∀ (evs : List CartEvent) (x : AppState × Store),
      (∀ it ∈ x.1.cart, 1 ≤ it.quantity) →
      ∀ it ∈ (cartRun x evs).1.cart, 1 ≤ it.quantity := by
    intro evs
    induction evs with
    | nil => intro x hx; simpa [cartRun] using hx
    | cons ev rest ih =>
      intro x hx
      have := ih (cartStep x ev) (cartStep_positive x ev hx)
      simpa [cartRun] using this
  exact key events (initialState, st) (by simp [initialState])

theorem cart_quantities_positive_witness :
    (cartRun (initialState, { rows := [], nextId := 1, faults := [], calls := [] })
        [CartEvent.add { id := 7, name := "stol", cost := 10000, image := "" },
         CartEvent.add { id := 8, name := "stul", cost := 5000, image := "" },
         CartEvent.setQuantity 7 (-5),
         CartEvent.add { id := 8, name := "stul", cost := 5000, image := "" },
         CartEvent.delete 9]).1.cart
      = [{ product := { id := 8, name := "stul", cost := 5000, image := "" }, quantity := 2 }] ∧
    (1 : Int) ≤
      ({ product := { id := 8, name := "stul", cost := 5000, image := "" }, quantity := 2 } :
        CartEntry).quantity :=
  ⟨by decide,
   cart_quantities_positive { rows := [], nextId := 1, faults := [], calls := [] }
     [CartEvent.add { id := 7, name := "stol", cost := 10000, image := "" },
      CartEvent.add { id := 8, name := "stul", cost := 5000, image := "" },
      CartEvent.setQuantity 7 (-5),
      CartEvent.add { id := 8, name := "stul", cost := 5000, image := "" },
      CartEvent.delete 9]
     { product := { id := 8, name := "stul", cost := 5000, image := "" }, quantity := 2 }
     (by decide)⟩

/-! ## Saving a new product -/

theorem Store.insert_calls (st : Store) (row : ProductInput) :
    (st.insert row).2.calls = st.calls ++ [StoreCall.insert row] := by
  simp only [Store.insert, Store.roundTrip]
  split
  · rfl
  · split <;> rfl

theorem Store.list_calls (st : Store) :
    (st.list).2.calls = st.calls ++ [StoreCall.list] := by
  simp only [Store.list, Store.roundTrip]
  split <;> rfl

/-- C11, as stated, fails: with no edit draft and the new-product draft
{name 'stol', cost 'abc'}, whose cost text is not a number (Number gives NaN),
saveProduct still calls the store's insert, with a NaN cost. -/
theorem saveProduct_inserts_non_numeric_cost :
    jsNumber "abc" = none ∧
    (saveProduct jsNumber
        { initialState with newProduct := { name := "stol", cost := "abc", image := "" } }
        { rows := [], nextId := 1, faults := [], calls := [] }).store.calls
      = [StoreCall.insert { name := "stol", cost := none, image := "" }] := by
  decide

/-- C11, amended: with no edit draft active, saveProduct calls the store's insert
exactly when the draft's name is non-empty and its cost text is non-empty; the
row it sends carries Number(cost text) as its cost, and insert is its first
store call, followed at most by one list. For every draft with an empty name or
an empty cost text no store call is made and the component state, products and
newProduct included, is left unchanged. -/
theorem saveProduct_insert_guard (toNumber : String → Option Int) (s : AppState)
    (st : Store) (hedit : s.editingProduct = none) :
    ((s.newProduct.name ≠ "" ∧ s.newProduct.cost ≠ "") →
      (saveProduct toNumber s st).store.calls
          = st.calls ++
            [StoreCall.insert
              { name := s.newProduct.name
                cost := toNumber s.newProduct.cost
                image := s.newProduct.image }] ∨
      (saveProduct toNumber s st).store.calls
          = st.calls ++
            [StoreCall.insert
              { name := s.newProduct.name
                cost := toNumber s.newProduct.cost
                image := s.newProduct.image },
             StoreCall.list]) ∧
    (¬ (s.newProduct.name ≠ "" ∧ s.newProduct.cost ≠ "") →
      saveProduct toNumber s st = { app := s, store := st, logged := none }) := by
  constructor
  · intro hguard
    have hins := Store.insert_calls st
      { name := s.newProduct.name
        cost := toNumber s.newProduct.cost
        image := s.newProduct.image }
    unfold saveProduct
    simp only [hedit]
    rw [if_pos hguard]
    simp only [db.addProduct, db.getProducts]
    rcases hadd : st.insert
      { name := s.newProduct.name
        cost := toNumber s.newProduct.cost
        image := s.newProduct.image } with ⟨res, st1⟩
    rw [hadd] at hins
    simp only at hins
    cases res with
    | error e =>
      left
      exact hins
    | ok r =>
      right
      have hlist := Store.list_calls st1
      rcases hl : st1.list with ⟨res2, st2⟩
      rw [hl] at hlist
      simp only at hlist
      cases res2 with
      | error e => simp only [hl, hlist, hins, List.append_assoc, List.singleton_append]
      | ok ps => simp only [hl, hlist, hins, List.append_assoc, List.singleton_append]
  · intro hguard
    unfold saveProduct
    simp only [hedit]
    rw [if_neg hguard]

theorem saveProduct_insert_guard_witness :
    (saveProduct jsNumber
        { initialState with newProduct := { name := "stul", cost := "5000", image := "" } }
        { rows := [], nextId := 1, faults := [], calls := [] }).store.calls
      = [StoreCall.insert { name := "stul", cost := some 5000, image := "" }, StoreCall.list] ∧
    saveProduct jsNumber
        { initialState with newProduct := { name := "stul", cost := "", image := "" } }
        { rows := [], nextId := 1, faults := [], calls := [] }
      = { app := { initialState with newProduct := { name := "stul", cost := "", image := "" } }
          store := { rows := [], nextId := 1, faults := [], calls := [] }
          logged := none } :=
  ⟨by decide,
   (saveProduct_insert_guard jsNumber
      { initialState with newProduct := { name := "stul", cost := "", image := "" } }
      { rows := [], nextId := 1, faults := [], calls := [] } rfl).2 (by decide)⟩

/-! ## Navigation: the stored page and the top of the history -/

/-- On a history of non-empty identifiers the fallback of `goToPage` is taken
only when the history is empty. -/
theorem orHome_getLast (history : List String) (hne : ∀ p ∈ history, p ≠ "") :
    orHome history.getLast? = history.getLast?.getD "home" := by
  cases hl : history.getLast? with
  | none => rfl
  | some p =>
    have hp : p ≠ "" := hne p (List.mem_of_getLast?_eq_some hl)
    simp [orHome, hp]

/-- One call with a non-empty identifier keeps the identifiers of the history
non-empty and the stored page equal to the top of the history. -/
theorem goToPage_tracks (s : AppState) (name : String) (hname : name ≠ "")
    (hne : ∀ p ∈ s.pageHistory, p ≠ "") :
    (∀ p ∈ (goToPage s name).pageHistory, p ≠ "") ∧
    (goToPage s name).page = (goToPage s name).pageHistory.getLast?.getD "home" := by
  by_cases hb : name = "back"
  · subst hb
    rw [goToPage_back]
    have hne2 : ∀ p ∈ s.pageHistory.dropLast, p ≠ "" :=
      fun p hp => hne p (List.dropLast_subset _ hp)
    exact ⟨hne2, orHome_getLast _ hne2⟩
  · rw [goToPage_forward s name hb]
    refine ⟨?_, ?_⟩
    · intro p hp
      rcases List.mem_append.mp hp with hold | hnew
      · exact hne p hold
      · simp only [List.mem_singleton] at hnew
        rw [hnew]
        exact hname
    · simp [List.getLast?_concat]

theorem navigate_tracks (names : List String) :
    ∀ s : AppState, (∀ n ∈ names, n ≠ "") → (∀ p ∈ s.pageHistory, p ≠ "") →
      s.page = s.pageHistory.getLast?.getD "home" →
      (∀ p ∈ (navigate s names).pageHistory, p ≠ "") ∧
      (navigate s names).page = (navigate s names).pageHistory.getLast?.getD "home" := by
  induction names with
  | nil => intro s _ hne hpage; exact ⟨hne, hpage⟩
  | cons name rest ih =>
    intro s hnames hne _
    have hstep := goToPage_tracks s name (hnames name (List.mem_cons_self _ _)) hne
    have := ih (goToPage s name)
      (fun n hn => hnames n (List.mem_cons_of_mem _ hn)) hstep.1 hstep.2
    simpa [navigate] using this

/-- C12: in every navigation state reached from the initial state by goToPage
calls with non-empty page identifiers (back included), the stored page is the
last element of pageHistory, or home when pageHistory is empty; and for every
non-empty page id x other than back, goToPage(x) followed by goToPage(back)
restores page and pageHistory (the whole state) to their prior values. -/
theorem page_tracks_history (names : List String) (hnames : ∀ n ∈ names, n ≠ "") :
    (navigate initialState names).page
      = (navigate initialState names).pageHistory.getLast?.getD "home" ∧
    ∀ x : String, x ≠ "" → x ≠ "back" →
      (goToPage (goToPage (navigate initialState names) x) "back").page
        = (navigate initialState names).page ∧
      (goToPage (goToPage (navigate initialState names) x) "back").pageHistory
        = (navigate initialState names).pageHistory ∧
      goToPage (goToPage (navigate initialState names) x) "back"
        = navigate initialState names := by
  have hinv := navigate_tracks names initialState hnames
    (by simp [initialState]) (by simp [initialState])
  refine ⟨hinv.2, fun x _ hx => ?_⟩
  have hround : goToPage (goToPage (navigate initialState names) x) "back"
      = navigate initialState names := by
    rw [goToPage_forward _ x hx, goToPage_back]
    simp only [List.dropLast_concat]
    rw [orHome_getLast _ hinv.1, ← hinv.2]
  exact ⟨by rw [hround], by rw [hround], hround⟩

theorem page_tracks_history_witness :
    (navigate initialState ["hisoblash", "tanlanganlar", "back", "back", "back"]).page = "home" ∧
    (navigate initialState ["hisoblash", "tanlanganlar", "back", "back", "back"]).pageHistory
      = [] ∧
    goToPage
        (goToPage (navigate initialState ["hisoblash", "tanlanganlar", "back", "back", "back"])
          "mahsulotlar")
        "back"
      = navigate initialState ["hisoblash", "tanlanganlar", "back", "back", "back"] :=
  ⟨by decide, by decide,
   ((page_tracks_history ["hisoblash", "tanlanganlar", "back", "back", "back"]
      (by decide)).2 "mahsulotlar" (by decide) (by decide)).2.2⟩

end OdilUsta
